import Mathlib

/-!
Verification of IcoCloud (`IcoCloud.py`, a PLY → OBJ point-cloud
converter).

The Python source is shallowly embedded below: numeric values are
modelled as exact rationals (`ℚ`), bytes as natural numbers, fallible
operations as `Except String`.  Interactive console input is modelled by
explicit parameters (`Option ℚ` for prompts that fall back to a
displayed default), and the random generator behind `random.sample` by
an explicit list of chosen positions together with the properties
`random.sample` guarantees (distinct, in-range, of the requested size).
-/

namespace IcoCloud

/-- A decoded vertex position `(x, y, z)`, normalized to exact rationals. -/
abbrev Point := ℚ × ℚ × ℚ

/-- Embeds `apply_preset` (IcoCloud.py lines 119-134).  Preset 1 maps each
`(x, y, z)` to `(x, z, -y)` (the for-loop appending into `new_verts`);
preset 2 returns the input list unchanged; any other preset id falls
through both branches and returns the still-empty accumulator `new_verts`. -/
def apply_preset (verts : List Point) (preset_id : ℤ) : List Point :=
  if preset_id = 1 then verts.map (fun p => (p.1, p.2.2, -p.2.1))
  else if preset_id = 2 then verts
  else []

/-- Python tuple indexing `v[i]` on a 3-tuple.  Indices other than 0, 1, 2
would raise `IndexError` in Python but are never used (`main` passes
`up_axis ∈ {1, 2}`); they are mapped to a junk value here. -/
def getAxis (i : ℕ) (p : Point) : ℚ :=
  match i with
  | 0 => p.1
  | 1 => p.2.1
  | 2 => p.2.2
  | _ => 0

/-- Embeds `crop_vertical` (lines 137-167).  The two console prompts are
modelled as `Option ℚ`: `none` means the user pressed return, so the
displayed default `min_h` (resp. `max_h`) is used.  Python's `min()` and
`max()` raise `ValueError` on the empty `heights` list, which surfaces
here as `.error`.  (The prompt branch where `float()` raises and the
crop is skipped cannot be expressed by these inputs; no claim involves
it.) -/
def crop_vertical (verts : List Point) (up_axis_index : ℕ)
    (lower_in upper_in : Option ℚ) : Except String (List Point) :=
  let heights := verts.map (getAxis up_axis_index)
  match heights.min?, heights.max? with
  | some min_h, some max_h =>
    let lower_cut := lower_in.getD min_h
    let upper_cut := upper_in.getD max_h
    Except.ok (verts.filter (fun v =>
      decide (lower_cut ≤ getAxis up_axis_index v ∧ getAxis up_axis_index v ≤ upper_cut)))
  | _, _ => Except.error "ValueError: min() arg is an empty sequence"

/-- Models the list produced by `random.sample(verts, k)` (line 261): the
random generator's choices are made explicit as the list `idxs` of chosen
positions into `verts`.  `random.sample` guarantees the positions are
distinct and in range and that exactly `k` of them are drawn; the
theorems below take those guarantees as hypotheses. -/
def pySample (verts : List Point) (idxs : List ℕ) : List Point :=
  idxs.filterMap (fun i => verts[i]?)

/-- The LOD target count of `main` (lines 258-259):
`target = int(len(verts) * keep_ratio)`, raised to 1 if smaller.
Python `int()` truncates toward zero, which agrees with `⌊·⌋` on the
non-negative products arising from the LOD table. -/
def lod_target (count : ℕ) (keep_ratio : ℚ) : ℕ :=
  max 1 (Int.toNat ⌊(count : ℚ) * keep_ratio⌋)

/-- Embeds the LOD step of `main` (lines 257-261): sampling happens only
when `keep_ratio < 1.0`; otherwise the list is left untouched. -/
def apply_lod (verts : List Point) (keep_ratio : ℚ) (idxs : List ℕ) : List Point :=
  if keep_ratio < 1 then pySample verts idxs else verts

/-- One OBJ output line produced by `write_ico_spheres`: the initial
comment, a vertex line `v x y z`, or a 1-based face line `f i j k`. -/
inductive ObjLine where
  | comment (text : String)
  | v (x y z : ℚ)
  | f (i j k : ℕ)
  deriving DecidableEq

/-- The 12 raw icosahedron vertices (lines 17-21).  In the source `t` is
the float `(1 + math.sqrt(5)) / 2` and the vertices are then normalized
to unit length (lines 24-27), producing irrational coordinates; every
claim checked here depends only on the NUMBER of template vertices,
which normalization preserves, so the writer below is parameterized by
the normalized vertex list and this raw table (with `t` as a parameter)
serves as its concrete 12-element stand-in. -/
def raw_verts (t : ℚ) : List (ℚ × ℚ × ℚ) :=
  [(-1, t, 0), (1, t, 0), (-1, -t, 0), (1, -t, 0),
   (0, -1, t), (0, 1, t), (0, -1, -t), (0, 1, -t),
   (t, 0, -1), (t, 0, 1), (-t, 0, -1), (-t, 0, 1)]

/-- The 20 icosahedron faces (lines 29-34): template-local 0-based
vertex index triples. -/
def ico_faces_unit : List (ℕ × ℕ × ℕ) :=
  [(0, 11, 5), (0, 5, 1), (0, 1, 7), (0, 7, 10), (0, 10, 11),
   (1, 5, 9), (5, 11, 4), (11, 10, 2), (10, 7, 6), (7, 1, 8),
   (3, 9, 4), (3, 4, 2), (3, 2, 6), (3, 6, 8), (3, 8, 9),
   (4, 9, 5), (2, 4, 11), (6, 2, 10), (8, 6, 7), (9, 8, 1)]

/-- One iteration of the point loop in `write_ico_spheres` (lines
177-193): 12 vertex lines for the icosphere translated to the scaled
point `w`, then 20 face lines built from the running vertex offset,
1-based (`v_offset + f + 1`). -/
def writeSphere (ico_verts : List (ℚ × ℚ × ℚ)) (radius : ℚ) (w : ℚ × ℚ × ℚ)
    (v_offset : ℕ) : List ObjLine :=
  (ico_verts.map (fun u => ObjLine.v (w.1 + u.1 * radius) (w.2.1 + u.2.1 * radius)
      (w.2.2 + u.2.2 * radius)))
  ++ (ico_faces_unit.map (fun t => ObjLine.f (v_offset + t.1 + 1) (v_offset + t.2.1 + 1)
      (v_offset + t.2.2 + 1)))

/-- The full point loop of `write_ico_spheres`, threading the running
offset (`v_offset += len(ico_verts_unit)` after each point, line 195). -/
def writeLoop (ico_verts : List (ℚ × ℚ × ℚ)) (radius world_scale : ℚ) :
    List Point → ℕ → List ObjLine
  | [], _ => []
  | p :: rest, v_offset =>
    writeSphere ico_verts radius
        (p.1 * world_scale, p.2.1 * world_scale, p.2.2 * world_scale) v_offset
      ++ writeLoop ico_verts radius world_scale rest (v_offset + ico_verts.length)

/-- Embeds `write_ico_spheres` (lines 170-197) as the list of lines
written to the destination file, in order. -/
def write_ico_spheres (ico_verts : List (ℚ × ℚ × ℚ)) (verts : List Point)
    (radius world_scale : ℚ) : List ObjLine :=
  ObjLine.comment "# OBJ from PLY" :: writeLoop ico_verts radius world_scale verts 0

/-- The per-point line pattern stated by the spec, for the point with
0-based processing index `k`: 12 `v` lines followed by 20 `f` lines
whose 1-based indices are `12 * k + template_index + 1` (offset starts
at 0 and grows by 12 per point). -/
def spec_body (ico_verts : List (ℚ × ℚ × ℚ)) (radius world_scale : ℚ) :
    List Point → ℕ → List ObjLine
  | [], _ => []
  | p :: rest, k =>
    (ico_verts.map (fun u => ObjLine.v (p.1 * world_scale + u.1 * radius)
        (p.2.1 * world_scale + u.2.1 * radius) (p.2.2 * world_scale + u.2.2 * radius)))
    ++ (ico_faces_unit.map (fun t => ObjLine.f (12 * k + t.1 + 1) (12 * k + t.2.1 + 1)
        (12 * k + t.2.2 + 1)))
    ++ spec_body ico_verts radius world_scale rest (k + 1)

/-- Recognizes a `v` line. -/
def isVLine : ObjLine → Bool
  | ObjLine.v _ _ _ => true
  | _ => false

/-- Recognizes an `f` line. -/
def isFLine : ObjLine → Bool
  | ObjLine.f _ _ _ => true
  | _ => false

/-- Embeds `main` from the empty-crop check onward (lines 238-276): an
empty point set aborts with the empty-result message before the LOD step
and before `write_ico_spheres` is ever called (so no output file is
opened); otherwise LOD sampling is applied and the OBJ lines are
produced. -/
def main_after_crop (ico_verts : List (ℚ × ℚ × ℚ)) (verts : List Point)
    (keep_ratio : ℚ) (idxs : List ℕ) (w_scale ico_rad : ℚ) :
    Except String (List ObjLine) :=
  if verts.length = 0 then Except.error "Error: You cropped out all the points!"
  else Except.ok (write_ico_spheres ico_verts (apply_lod verts keep_ratio idxs)
    ico_rad w_scale)

/-- A concrete 1000-point input for the sampler witness. -/
def c5_verts : List Point := List.replicate 1000 ((7 : ℚ), 8, 9)

/-- Python `str.lower()` on the ASCII tokens appearing in PLY headers
(character-wise ASCII lower-casing). -/
def py_lower (s : String) : String := String.mk (s.toList.map Char.toLower)

/-- Embeds `get_struct_char` (lines 37-47): lower-cases the declared
type and resolves it to a struct format character, `none` for
unrecognized types. -/
def get_struct_char (prop_type : String) : Option Char :=
  let p := py_lower prop_type
  if p = "char" ∨ p = "int8" then some 'b'
  else if p = "uchar" ∨ p = "uint8" then some 'B'
  else if p = "short" ∨ p = "int16" then some 'h'
  else if p = "ushort" ∨ p = "uint16" then some 'H'
  else if p = "int" ∨ p = "int32" then some 'i'
  else if p = "uint" ∨ p = "uint32" then some 'I'
  else if p = "float" ∨ p = "float32" then some 'f'
  else if p = "double" ∨ p = "float64" then some 'd'
  else none

/-- Byte width of one struct format character.  The format string built
on line 94 starts with `<` or `>`, so `struct.calcsize` uses standard
sizes with no padding: the total is the plain sum of these widths. -/
def struct_size (c : Char) : ℕ :=
  if c = 'b' ∨ c = 'B' then 1
  else if c = 'h' ∨ c = 'H' then 2
  else if c = 'i' ∨ c = 'I' ∨ c = 'f' then 4
  else if c = 'd' then 8
  else 0

/-- `struct.calcsize` of the format built from the resolved properties
(line 95): the stride of one binary vertex record. -/
def calcsize (props : List (String × Char)) : ℕ :=
  (props.map (fun p => struct_size p.2)).sum

/-- The mutable locals of the header loop (lines 58-62). -/
structure ParseState where
  vertex_count : ℕ
  is_binary : Bool
  is_big_endian : Bool
  props : List (String × Char)
  in_vertex_element : Bool

/-- Line 58-62 initial values. -/
def initParseState : ParseState := ⟨0, false, false, [], false⟩

/-- Python's substring test `needle in hay` on strings. -/
def py_in (needle hay : String) : Bool :=
  decide (needle.toList <:+: hay.toList)

/-- Python `int(tok)` on the nonnegative integer literals that occur as
PLY element counts.  (Python `int()` also accepts signs, surrounding
whitespace and underscores; no claim exercises those forms.) -/
def py_int (s : String) : Option ℕ :=
  let cs := s.toList
  if cs ≠ [] ∧ cs.all Char.isDigit then
    some (cs.foldl (fun a c => a * 10 + (c.toNat - 48)) 0)
  else none

/-- One iteration of the header loop (lines 64-80) on an already
whitespace-split line (`parts = line.split()`).  Python `IndexError`
(too few tokens) and `ValueError` (non-numeric vertex count, see
`py_int`) abort the whole read and so surface as `.error`. -/
def process_line (st : ParseState) (parts : List String) : Except String ParseState :=
  match parts with
  | [] => Except.ok st
  | p0 :: rest =>
    if p0 = "format" then
      match rest.head? with
      | none => Except.error "IndexError: list index out of range"
      | some p1 =>
        if py_in "binary_little_endian" p1 then
          Except.ok { st with is_binary := true }
        else if py_in "binary_big_endian" p1 then
          Except.ok { st with is_binary := true, is_big_endian := true }
        else Except.ok st
    else if p0 = "element" then
      match rest.head? with
      | none => Except.error "IndexError: list index out of range"
      | some p1 =>
        if p1 = "vertex" then
          match rest[1]? with
          | none => Except.error "IndexError: list index out of range"
          | some p2 =>
            match py_int p2 with
            | none => Except.error "ValueError: invalid literal for int()"
            | some n => Except.ok { st with vertex_count := n, in_vertex_element := true }
        else Except.ok { st with in_vertex_element := false }
    else if p0 = "property" then
      if st.in_vertex_element then
        match rest.head? with
        | none => Except.error "IndexError: list index out of range"
        | some dtype =>
          let name := (p0 :: rest).getLast (List.cons_ne_nil p0 rest)
          if dtype = "list" then Except.ok st
          else
            match get_struct_char dtype with
            | some fmt_char => Except.ok { st with props := st.props ++ [(name, fmt_char)] }
            | none => Except.ok st
      else Except.ok st
    else Except.ok st

/-- Resolution of the x/y/z field indices (lines 82-84): iterate the
props in order, overwriting on every name hit, so the LAST occurrence of
a duplicated name wins; `none` models the -1 sentinel of `idx_map`. -/
def resolve_idx (props : List (String × Char)) (key : String) : Option ℕ :=
  (props.foldl (fun st p => (st.1 + 1, if p.1 = key then some st.1 else st.2))
    ((0 : ℕ), (none : Option ℕ))).2

/-- Little-endian accumulation of a byte list into an unsigned value. -/
def le_val (bs : List ℕ) : ℕ :=
  bs.foldr (fun b acc => b % 256 + 256 * acc) 0

/-- Two's-complement reading of a `width`-byte unsigned value. -/
def to_signed (width v : ℕ) : ℤ :=
  if v < 2 ^ (8 * width - 1) then (v : ℤ) else (v : ℤ) - 2 ^ (8 * width)

/-- Exact value of an IEEE-754 single, given its 32-bit pattern.  The
Inf/NaN patterns (exponent 255) have no rational value and are mapped to
0; no claim depends on them. -/
def decode_f32 (v : ℕ) : ℚ :=
  let s : ℕ := v / 2 ^ 31 % 2
  let e : ℕ := v / 2 ^ 23 % 256
  let m : ℕ := v % 2 ^ 23
  if e = 255 then 0
  else if e = 0 then ((-1 : ℚ) ^ s * (m : ℚ)) / 2 ^ 149
  else ((-1 : ℚ) ^ s * (((2 ^ 23 + m) * 2 ^ e : ℕ) : ℚ)) / 2 ^ 150

/-- Exact value of an IEEE-754 double, given its 64-bit pattern; Inf/NaN
(exponent 2047) mapped to 0 as in `decode_f32`. -/
def decode_f64 (v : ℕ) : ℚ :=
  let s : ℕ := v / 2 ^ 63 % 2
  let e : ℕ := v / 2 ^ 52 % 2048
  let m : ℕ := v % 2 ^ 52
  if e = 2047 then 0
  else if e = 0 then ((-1 : ℚ) ^ s * (m : ℚ)) / 2 ^ 1074
  else ((-1 : ℚ) ^ s * (((2 ^ 52 + m) * 2 ^ e : ℕ) : ℚ)) / 2 ^ 1075

/-- Decodes the bytes of one field according to its format character and
the endianness prefix of the format string. -/
def decode_field (is_big_endian : Bool) (c : Char) (bs : List ℕ) : ℚ :=
  let v := le_val (if is_big_endian then bs.reverse else bs)
  if c = 'B' then (v : ℚ)
  else if c = 'b' then ((to_signed 1 v : ℤ) : ℚ)
  else if c = 'H' then (v : ℚ)
  else if c = 'h' then ((to_signed 2 v : ℤ) : ℚ)
  else if c = 'I' then (v : ℚ)
  else if c = 'i' then ((to_signed 4 v : ℤ) : ℚ)
  else if c = 'f' then decode_f32 v
  else if c = 'd' then decode_f64 v
  else 0

/-- `struct.unpack` of one stride-sized record: split the chunk at the
cumulative field offsets (prefix sums of the widths) and decode each
field. -/
def unpack_chunk (is_big_endian : Bool) : List Char → List ℕ → List ℚ
  | [], _ => []
  | c :: cs, bs =>
    decode_field is_big_endian c (bs.take (struct_size c))
      :: unpack_chunk is_big_endian cs (bs.drop (struct_size c))

/-- The slices `full_data[i:i+stride]` for `i = 0, stride, 2*stride, ...`
taken by the fallback loop (line 105); the final slice may be shorter
than `stride` when the data is truncated mid-record. -/
def pyChunks (stride : ℕ) (data : List ℕ) : List (List ℕ) :=
  if h : stride = 0 ∨ data = [] then []
  else data.take stride :: pyChunks stride (data.drop stride)
termination_by data.length
decreasing_by
  push_neg at h
  have hpos : 0 < data.length := List.length_pos.mpr h.2
  simp only [List.length_drop]
  omega

/-- Embeds the binary branch of `read_ply_vertices` (lines 92-107).
`struct.iter_unpack` (the fast path, line 101) raises `struct.error`
unless the buffer length is an exact multiple of the stride; the bare
`except` then runs the fallback loop, whose `struct.unpack` on the final
short slice raises `struct.error`, and that exception propagates out of
`read_ply_vertices` (discarding any records the fallback had decoded).
So: exact multiple → every record decoded; otherwise → error. -/
def decode_binary (is_big_endian : Bool) (props : List (String × Char))
    (ix iy iz : ℕ) (data : List ℕ) : Except String (List Point) :=
  let stride := calcsize props
  let chars := props.map (fun p => p.2)
  if stride = 0 then Except.error "struct.error: zero-length format"
  else if data.length % stride = 0 then
    Except.ok ((pyChunks stride data).map (fun chunk =>
      let u := unpack_chunk is_big_endian chars chunk
      (u.getD ix 0, u.getD iy 0, u.getD iz 0)))
  else Except.error "struct.error: unpack requires a buffer of stride bytes"

/-- Partial model of Python `float(tok)`: optional sign, digits, and an
optional fractional part.  (Python also accepts exponent forms, inf/nan
and surrounding whitespace; no claim exercises those.) -/
def pyFloat (s : String) : Option ℚ :=
  let signed : ℚ × List Char :=
    match s.toList with
    | '-' :: rest => (-1, rest)
    | '+' :: rest => (1, rest)
    | cs => (1, cs)
  let toVal : List Char → ℕ := fun cs => cs.foldl (fun a c => a * 10 + (c.toNat - 48)) 0
  match signed.2.splitOn '.' with
  | [ip] =>
    if ip ≠ [] ∧ ip.all Char.isDigit then some (signed.1 * toVal ip) else none
  | [ip, fp] =>
    if (ip ≠ [] ∨ fp ≠ []) ∧ ip.all Char.isDigit ∧ fp.all Char.isDigit then
      some (signed.1 * ((toVal ip : ℚ) + (toVal fp : ℚ) / 10 ^ fp.length))
    else none
  | _ => none

/-- Embeds the ASCII branch (lines 108-115): reads at most
`vertex_count` lines, each modelled pre-split into whitespace tokens
exactly as `line_data = f.readline().split()` produces.  A line with no
tokens (end of file or a blank line) stops the loop; a line whose tokens
do not all parse as floats, or with too few tokens for the resolved
indices, is skipped (`except: continue`). -/
def decode_ascii (ix iy iz : ℕ) : ℕ → List (List String) → List Point
  | 0, _ => []
  | _ + 1, [] => []
  | n + 1, toks :: rest =>
    if toks = [] then []
    else
      match toks.mapM pyFloat with
      | some v =>
        match v[ix]?, v[iy]?, v[iz]? with
        | some a, some b, some c => (a, b, c) :: decode_ascii ix iy iz n rest
        | _, _, _ => decode_ascii ix iy iz n rest
      | none => decode_ascii ix iy iz n rest

/-- The part of the file after `end_header`: raw bytes in binary mode,
whitespace-tokenized text lines in ASCII mode.  A single run only ever
consumes it one way, so the two views are a sum here. -/
inductive Body where
  | bin (bytes : List ℕ)
  | txt (lines : List (List String))

/-- Embeds `read_ply_vertices` (lines 49-116) from the point where the
header lines are in hand (the `readline` loop up to `end_header` is pure
plumbing; header lines are modelled pre-split into whitespace tokens).
The x/y/z index check (line 86) runs before any record data is touched;
in binary mode `f.read(stride * vertex_count)` caps the data actually
decoded. -/
def read_ply_vertices (header_lines : List (List String)) (body : Body) :
    Except String (List Point) :=
  match header_lines.foldlM process_line initParseState with
  | Except.error e => Except.error e
  | Except.ok st =>
  match resolve_idx st.props "x", resolve_idx st.props "y", resolve_idx st.props "z" with
  | some ix, some iy, some iz =>
    match st.is_binary, body with
    | true, Body.bin bytes =>
      decode_binary st.is_big_endian st.props ix iy iz
        (bytes.take (calcsize st.props * st.vertex_count))
    | false, Body.txt lines => Except.ok (decode_ascii ix iy iz st.vertex_count lines)
    | _, _ => Except.error "model: body view does not match the header format"
  | _, _, _ => Except.error "PLY missing x, y, or z."

/-- A header whose vertex schema declares only `x` and `y` (no `z`). -/
def c8_header : List (List String) :=
  [["ply"], ["format", "ascii", "1.0"], ["element", "vertex", "3"],
   ["property", "float", "x"], ["property", "float", "y"], ["end_header"]]

/-- The parse state `c8_header` produces. -/
def c8_state : ParseState := ⟨3, false, false, [("x", 'f'), ("y", 'f')], true⟩

/-- A binary header declaring the vertex schema
`[x:float32, y:float32, z:float32, nx:float32, ny:float32, nz:float32]`. -/
def c7_header : List (List String) :=
  [["ply"], ["format", "binary_little_endian", "1.0"], ["element", "vertex", "2"],
   ["property", "float", "x"], ["property", "float", "y"], ["property", "float", "z"],
   ["property", "float", "nx"], ["property", "float", "ny"], ["property", "float", "nz"],
   ["end_header"]]

/-- The resolved property list of `c7_header`. -/
def c7_props : List (String × Char) :=
  [("x", 'f'), ("y", 'f'), ("z", 'f'), ("nx", 'f'), ("ny", 'f'), ("nz", 'f')]

/-- The parse state `c7_header` produces. -/
def c7_state : ParseState := ⟨2, true, false, c7_props, true⟩

/-- A binary header declaring two vertices with schema
`[x:float32, y:float32, z:float32]` (stride 12). -/
def c2_header : List (List String) :=
  [["ply"], ["format", "binary_little_endian", "1.0"], ["element", "vertex", "2"],
   ["property", "float", "x"], ["property", "float", "y"], ["property", "float", "z"],
   ["end_header"]]

/-- Thirteen zero bytes: one complete 12-byte record plus one trailing
byte, i.e. truncated data whose final chunk is shorter than one stride. -/
def c2_body : List ℕ := List.replicate 13 0


/-- C1.  The spec says any preset id other than 1 and 2 acts as the
identity; the code instead returns the empty accumulator, so a
one-point list under preset 3 comes back empty, not unchanged. -/
theorem c1_counterexample :
    apply_preset [((1 : ℚ), 2, 3)] 3 = []
    ∧ apply_preset [((1 : ℚ), 2, 3)] 3 ≠ [((1 : ℚ), 2, 3)] := by
  constructor
  · decide
  · decide

/-- C1 (amended).  For every point sequence and every preset id other
than 1 and 2, `apply_preset` returns the empty sequence (the untouched
`new_verts` accumulator), not the input. -/
theorem c1_amended (verts : List Point) (preset_id : ℤ)
    (h1 : preset_id ≠ 1) (h2 : preset_id ≠ 2) :
    apply_preset verts preset_id = [] := by
  simp [apply_preset, h1, h2]

/-- Witness for `c1_amended` at preset id 3 on a one-point list. -/
theorem c1_amended_witness :
    (3 : ℤ) ≠ 1 ∧ (3 : ℤ) ≠ 2 ∧ apply_preset [((1 : ℚ), 2, 3)] 3 = [] :=
  ⟨by decide, by decide, c1_amended [((1 : ℚ), 2, 3)] 3 (by decide) (by decide)⟩

/-- C3.  Preset 1 maps every `(x, y, z)` to `(x, z, -y)` pointwise and in
order; preset 2 is the identity; in particular `(1,2,3) ↦ (1,3,-2)`
under preset 1 and `(1,2,3) ↦ (1,2,3)` under preset 2. -/
theorem c3_preset_transform (verts : List Point) :
    apply_preset verts 1 = verts.map (fun p => (p.1, p.2.2, -p.2.1))
    ∧ apply_preset verts 2 = verts
    ∧ apply_preset [((1 : ℚ), 2, 3)] 1 = [((1 : ℚ), 3, -2)]
    ∧ apply_preset [((1 : ℚ), 2, 3)] 2 = [((1 : ℚ), 2, 3)] := by
  refine ⟨by simp [apply_preset], by simp [apply_preset], by decide, by decide⟩

/-- C10.  On an empty point sequence `crop_vertical` computes
`min(heights)` of an empty list, which raises; the call never returns a
point list (in particular not the empty one). -/
theorem c10_crop_empty_input (up_axis_index : ℕ) (lower_in upper_in : Option ℚ) :
    crop_vertical [] up_axis_index lower_in upper_in
      = Except.error "ValueError: min() arg is an empty sequence"
    ∧ ∀ l : List Point,
        crop_vertical [] up_axis_index lower_in upper_in ≠ Except.ok l := by
  refine ⟨rfl, ?_⟩
  intro l h
  exact Except.noConfusion h

/-- C4.  With explicit bounds the crop is exactly the stable inclusive
filter `lower ≤ point[upAxisIndex] ≤ upper`; with both prompts left at
their defaults (the observed min and max of that axis) every point is
retained. -/
theorem c4_crop_filter (verts : List Point) (up_axis_index : ℕ) (lower upper : ℚ)
    (hne : verts ≠ []) (_hidx : up_axis_index = 1 ∨ up_axis_index = 2) :
    crop_vertical verts up_axis_index (some lower) (some upper)
      = Except.ok (verts.filter (fun v =>
          decide (lower ≤ getAxis up_axis_index v ∧ getAxis up_axis_index v ≤ upper)))
    ∧ crop_vertical verts up_axis_index none none = Except.ok verts := by
  have hhne : verts.map (getAxis up_axis_index) ≠ [] := by
    simpa using hne
  rcases hmin : (verts.map (getAxis up_axis_index)).min? with _ | mh
  · exact absurd (List.min?_eq_none_iff.mp hmin) hhne
  rcases hmax : (verts.map (getAxis up_axis_index)).max? with _ | Mh
  · exact absurd (List.max?_eq_none_iff.mp hmax) hhne
  constructor
  · simp only [crop_vertical, hmin, hmax, Option.getD_some]
  · simp only [crop_vertical, hmin, hmax, Option.getD_none]
    have hall : ∀ v ∈ verts,
        (decide (mh ≤ getAxis up_axis_index v ∧ getAxis up_axis_index v ≤ Mh)) = true := by
      intro v hv
      have hmem : getAxis up_axis_index v ∈ verts.map (getAxis up_axis_index) :=
        List.mem_map_of_mem _ hv
      have h1 : mh ≤ getAxis up_axis_index v :=
        (List.le_min?_iff (fun a b c => le_min_iff) hmin).mp (le_refl mh) _ hmem
      have h2 : getAxis up_axis_index v ≤ Mh :=
        (List.max?_le_iff (fun a b c => max_le_iff) hmax).mp (le_refl Mh) _ hmem
      simp [h1, h2]
    rw [List.filter_eq_self.mpr hall]

/-- Witness for `c4_crop_filter`: axis-1 values `[0, 5, 10, 15]` with
bounds `[5, 10]` keep exactly the points with values 5 and 10, and the
default bounds keep everything. -/
theorem c4_crop_filter_witness :
    ([((0 : ℚ), 0, 0), ((0 : ℚ), 5, 0), ((0 : ℚ), 10, 0), ((0 : ℚ), 15, 0)] : List Point) ≠ []
    ∧ ((1 : ℕ) = 1 ∨ (1 : ℕ) = 2)
    ∧ crop_vertical [((0 : ℚ), 0, 0), ((0 : ℚ), 5, 0), ((0 : ℚ), 10, 0), ((0 : ℚ), 15, 0)]
        1 (some 5) (some 10)
        = Except.ok [((0 : ℚ), 5, 0), ((0 : ℚ), 10, 0)]
    ∧ crop_vertical [((0 : ℚ), 0, 0), ((0 : ℚ), 5, 0), ((0 : ℚ), 10, 0), ((0 : ℚ), 15, 0)]
        1 none none
        = Except.ok [((0 : ℚ), 0, 0), ((0 : ℚ), 5, 0), ((0 : ℚ), 10, 0), ((0 : ℚ), 15, 0)] := by
  have h := c4_crop_filter
    [((0 : ℚ), 0, 0), ((0 : ℚ), 5, 0), ((0 : ℚ), 10, 0), ((0 : ℚ), 15, 0)]
    1 5 10 (by decide) (Or.inl rfl)
  exact ⟨by decide, Or.inl rfl,
    h.1.trans (congrArg Except.ok (by decide)), h.2⟩

theorem writeLoop_eq_spec_body (ico_verts : List (ℚ × ℚ × ℚ)) (radius world_scale : ℚ)
    (h12 : ico_verts.length = 12) :
    ∀ (vs : List Point) (k : ℕ),
      writeLoop ico_verts radius world_scale vs (12 * k)
        = spec_body ico_verts radius world_scale vs k := by
  intro vs
  induction vs with
  | nil => intro k; rfl
  | cons p rest ih =>
    intro k
    have harith : 12 * k + ico_verts.length = 12 * (k + 1) := by
      rw [h12]; ring
    simp only [writeLoop, spec_body, writeSphere, harith, ih (k + 1), List.append_assoc]

theorem writeSphere_filter_v (ico_verts : List (ℚ × ℚ × ℚ)) (radius : ℚ)
    (w : ℚ × ℚ × ℚ) (off : ℕ) :
    ((writeSphere ico_verts radius w off).filter isVLine).length = ico_verts.length := by
  have h1 : List.filter isVLine
      (ico_verts.map (fun u => ObjLine.v (w.1 + u.1 * radius) (w.2.1 + u.2.1 * radius)
        (w.2.2 + u.2.2 * radius)))
      = ico_verts.map (fun u => ObjLine.v (w.1 + u.1 * radius) (w.2.1 + u.2.1 * radius)
        (w.2.2 + u.2.2 * radius)) := by
    apply List.filter_eq_self.mpr
    intro a ha
    rcases List.mem_map.mp ha with ⟨u, _, rfl⟩
    rfl
  have h2 : List.filter isVLine
      (ico_faces_unit.map (fun t => ObjLine.f (off + t.1 + 1) (off + t.2.1 + 1)
        (off + t.2.2 + 1))) = [] := by
    apply List.filter_eq_nil_iff.mpr
    intro a ha
    rcases List.mem_map.mp ha with ⟨t, _, rfl⟩
    simp [isVLine]
  simp [writeSphere, List.filter_append, h1, h2]

theorem writeSphere_filter_f (ico_verts : List (ℚ × ℚ × ℚ)) (radius : ℚ)
    (w : ℚ × ℚ × ℚ) (off : ℕ) :
    ((writeSphere ico_verts radius w off).filter isFLine).length = 20 := by
  have h1 : List.filter isFLine
      (ico_verts.map (fun u => ObjLine.v (w.1 + u.1 * radius) (w.2.1 + u.2.1 * radius)
        (w.2.2 + u.2.2 * radius))) = [] := by
    apply List.filter_eq_nil_iff.mpr
    intro a ha
    rcases List.mem_map.mp ha with ⟨u, _, rfl⟩
    simp [isFLine]
  have h2 : List.filter isFLine
      (ico_faces_unit.map (fun t => ObjLine.f (off + t.1 + 1) (off + t.2.1 + 1)
        (off + t.2.2 + 1)))
      = ico_faces_unit.map (fun t => ObjLine.f (off + t.1 + 1) (off + t.2.1 + 1)
        (off + t.2.2 + 1)) := by
    apply List.filter_eq_self.mpr
    intro a ha
    rcases List.mem_map.mp ha with ⟨t, _, rfl⟩
    rfl
  simp only [writeSphere, List.filter_append, h1, h2, List.length_append,
    List.length_nil, List.length_map]
  rfl

theorem writeLoop_count_v (ico_verts : List (ℚ × ℚ × ℚ)) (radius world_scale : ℚ)
    (h12 : ico_verts.length = 12) :
    ∀ (vs : List Point) (v_offset : ℕ),
      ((writeLoop ico_verts radius world_scale vs v_offset).filter isVLine).length
        = 12 * vs.length := by
  intro vs
  induction vs with
  | nil => intro v_offset; simp [writeLoop]
  | cons p rest ih =>
    intro v_offset
    simp only [writeLoop, List.filter_append, List.length_append,
      writeSphere_filter_v, ih, List.length_cons, h12]
    ring

theorem writeLoop_count_f (ico_verts : List (ℚ × ℚ × ℚ)) (radius world_scale : ℚ) :
    ∀ (vs : List Point) (v_offset : ℕ),
      ((writeLoop ico_verts radius world_scale vs v_offset).filter isFLine).length
        = 20 * vs.length := by
  intro vs
  induction vs with
  | nil => intro v_offset; simp [writeLoop]
  | cons p rest ih =>
    intro v_offset
    simp only [writeLoop, List.filter_append, List.length_append,
      writeSphere_filter_f, ih, List.length_cons]
    ring

/-- C6.  With a 12-vertex template the writer output is exactly the
comment line followed, for each point in processing order, by 12 `v`
lines and then 20 `f` lines whose 1-based indices are
`12 * k + template_index + 1` for the k-th point (so consecutive points'
face indices differ by 12); consequently there are `12 * n` `v` lines
and `20 * n` `f` lines for `n` points. -/
theorem c6_mesh_writer (ico_verts : List (ℚ × ℚ × ℚ)) (verts : List Point)
    (radius world_scale : ℚ) (h12 : ico_verts.length = 12) :
    write_ico_spheres ico_verts verts radius world_scale
      = ObjLine.comment "# OBJ from PLY" :: spec_body ico_verts radius world_scale verts 0
    ∧ ((write_ico_spheres ico_verts verts radius world_scale).filter isVLine).length
        = 12 * verts.length
    ∧ ((write_ico_spheres ico_verts verts radius world_scale).filter isFLine).length
        = 20 * verts.length := by
  refine ⟨?_, ?_, ?_⟩
  · have h := writeLoop_eq_spec_body ico_verts radius world_scale h12 verts 0
    simpa [write_ico_spheres] using h
  · have h := writeLoop_count_v ico_verts radius world_scale h12 verts 0
    simpa [write_ico_spheres, isVLine] using h
  · have h := writeLoop_count_f ico_verts radius world_scale verts 0
    simpa [write_ico_spheres, isFLine] using h

/-- Witness for `c6_mesh_writer`: two concrete points produce 24 `v`
lines and 40 `f` lines in the spec pattern. -/
theorem c6_mesh_writer_witness :
    (raw_verts (8 / 5)).length = 12
    ∧ (write_ico_spheres (raw_verts (8 / 5)) [((1 : ℚ), 2, 3), ((4 : ℚ), 5, 6)] (1 / 100) 1
        = ObjLine.comment "# OBJ from PLY"
          :: spec_body (raw_verts (8 / 5)) (1 / 100) 1 [((1 : ℚ), 2, 3), ((4 : ℚ), 5, 6)] 0)
    ∧ ((write_ico_spheres (raw_verts (8 / 5)) [((1 : ℚ), 2, 3), ((4 : ℚ), 5, 6)]
          (1 / 100) 1).filter isVLine).length = 24
    ∧ ((write_ico_spheres (raw_verts (8 / 5)) [((1 : ℚ), 2, 3), ((4 : ℚ), 5, 6)]
          (1 / 100) 1).filter isFLine).length = 40 := by
  have h := c6_mesh_writer (raw_verts (8 / 5)) [((1 : ℚ), 2, 3), ((4 : ℚ), 5, 6)]
    (1 / 100) 1 (by decide)
  exact ⟨by decide, h.1, h.2.1, h.2.2⟩

/-- C9.  When the crop leaves zero points, the pipeline stops with the
empty-result error and produces no writer output at all (no line list is
ever returned, hence no file content is written). -/
theorem c9_empty_crop (ico_verts : List (ℚ × ℚ × ℚ)) (verts : List Point)
    (keep_ratio : ℚ) (idxs : List ℕ) (w_scale ico_rad : ℚ) (h : verts = []) :
    main_after_crop ico_verts verts keep_ratio idxs w_scale ico_rad
      = Except.error "Error: You cropped out all the points!"
    ∧ ∀ lines : List ObjLine,
        main_after_crop ico_verts verts keep_ratio idxs w_scale ico_rad
          ≠ Except.ok lines := by
  subst h
  refine ⟨rfl, ?_⟩
  intro lines hcontra
  exact Except.noConfusion hcontra

/-- Witness for `c9_empty_crop` on the empty point list. -/
theorem c9_empty_crop_witness :
    ([] : List Point) = []
    ∧ main_after_crop [] [] 1 [] 1 (1 / 100)
        = Except.error "Error: You cropped out all the points!" :=
  ⟨rfl, (c9_empty_crop [] [] 1 [] 1 (1 / 100) rfl).1⟩

theorem pySample_length (verts : List Point) (idxs : List ℕ)
    (h : ∀ i ∈ idxs, i < verts.length) :
    (pySample verts idxs).length = idxs.length := by
  induction idxs with
  | nil => rfl
  | cons i is ih =>
    have hi : i < verts.length := h i (List.mem_cons_self i is)
    have hrest : ∀ j ∈ is, j < verts.length := fun j hj => h j (List.mem_cons_of_mem i hj)
    simp only [pySample, List.filterMap_cons, List.getElem?_eq_getElem hi] at ih ⊢
    simp [ih hrest]

theorem pySample_eq_map (verts : List Point) (idxs : List ℕ)
    (h : ∀ i ∈ idxs, i < verts.length) :
    pySample verts idxs = idxs.map (fun i => verts.getD i ((0 : ℚ), 0, 0)) := by
  induction idxs with
  | nil => rfl
  | cons i is ih =>
    have hi : i < verts.length := h i (List.mem_cons_self i is)
    have hrest : ∀ j ∈ is, j < verts.length := fun j hj => h j (List.mem_cons_of_mem i hj)
    simp only [pySample, List.filterMap_cons, List.getElem?_eq_getElem hi, List.map_cons]
    rw [List.getD_eq_getElem?_getD, List.getElem?_eq_getElem hi]
    simp only [Option.getD_some]
    exact congrArg _ (ih hrest)

theorem map_getD_range (l : List Point) :
    (List.range l.length).map (fun i => l.getD i ((0 : ℚ), 0, 0)) = l := by
  apply List.ext_getElem
  · simp
  · intro i h1 h2
    simp only [List.getElem_map, List.getElem_range]
    rw [List.getD_eq_getElem?_getD, List.getElem?_eq_getElem h2, Option.getD_some]

theorem pySample_subperm (verts : List Point) (idxs : List ℕ)
    (hnd : idxs.Nodup) (h : ∀ i ∈ idxs, i < verts.length) :
    List.Subperm (pySample verts idxs) verts := by
  rw [← Multiset.coe_le, pySample_eq_map verts idxs h]
  have h1 : (idxs : Multiset ℕ) ≤ Multiset.range verts.length := by
    rw [Multiset.le_iff_subset (Multiset.coe_nodup.mpr hnd)]
    intro i hi
    rw [Multiset.mem_range]
    exact h i (by simpa using hi)
  have h2 := Multiset.map_le_map (f := fun i => verts.getD i ((0 : ℚ), 0, 0)) h1
  rwa [← Multiset.coe_range, Multiset.map_coe, Multiset.map_coe, map_getD_range] at h2

/-- C5.  With `keepRatio ≥ 1` the LOD step leaves the list untouched;
with `keepRatio < 1` and index choices satisfying `random.sample`'s
contract (distinct in-range positions, `max(1, ⌊count·keepRatio⌋)` of
them) the output has exactly that target length, never more than the
input length, and is a sub-permutation of the input (drawn without
replacement). -/
theorem c5_density_sampler (verts : List Point) (keep_ratio : ℚ) (idxs : List ℕ)
    (hne : verts ≠ []) (hnd : idxs.Nodup) (hrange : ∀ i ∈ idxs, i < verts.length)
    (hlen : idxs.length = lod_target verts.length keep_ratio) :
    (1 ≤ keep_ratio → apply_lod verts keep_ratio idxs = verts)
    ∧ (keep_ratio < 1 →
        (apply_lod verts keep_ratio idxs).length = lod_target verts.length keep_ratio
        ∧ lod_target verts.length keep_ratio ≤ verts.length
        ∧ List.Subperm (apply_lod verts keep_ratio idxs) verts) := by
  constructor
  · intro hge
    simp [apply_lod, not_lt.mpr hge]
  · intro hlt
    have hsam : apply_lod verts keep_ratio idxs = pySample verts idxs := by
      simp [apply_lod, hlt]
    have hpos : 1 ≤ verts.length := List.length_pos.mpr hne
    refine ⟨?_, ?_, ?_⟩
    · rw [hsam, pySample_length verts idxs hrange, hlen]
    · unfold lod_target
      have hle : (verts.length : ℚ) * keep_ratio ≤ (verts.length : ℚ) :=
        mul_le_of_le_one_right (by positivity) hlt.le
      have hfloor : ⌊(verts.length : ℚ) * keep_ratio⌋ ≤ (verts.length : ℤ) := by
        calc ⌊(verts.length : ℚ) * keep_ratio⌋ ≤ ⌊((verts.length : ℕ) : ℚ)⌋ :=
              Int.floor_le_floor hle
          _ = (verts.length : ℤ) := Int.floor_natCast _
      exact max_le hpos (Int.toNat_le.mpr hfloor)
    · rw [hsam]
      exact pySample_subperm verts idxs hnd hrange

/-- Witness for `c5_density_sampler`: 1000 points with keep ratio 1/4
yield exactly 250 sampled points. -/
theorem c5_density_sampler_witness :
    c5_verts ≠ []
    ∧ (List.range 250).Nodup
    ∧ (∀ i ∈ List.range 250, i < c5_verts.length)
    ∧ (List.range 250).length = lod_target c5_verts.length (1 / 4)
    ∧ (1 : ℚ) / 4 < 1
    ∧ (apply_lod c5_verts (1 / 4) (List.range 250)).length = 250 := by
  have hlen1000 : c5_verts.length = 1000 := by
    simp only [c5_verts, List.length_replicate]
  have hne : c5_verts ≠ [] := by
    intro hcon
    rw [hcon] at hlen1000
    exact absurd hlen1000 (by decide)
  have hnd : (List.range 250).Nodup := List.nodup_range 250
  have hrange : ∀ i ∈ List.range 250, i < c5_verts.length := by
    intro i hi
    rw [hlen1000]
    have := List.mem_range.mp hi
    omega
  have htarget : lod_target 1000 (1 / 4) = 250 := by
    unfold lod_target
    norm_num
    rfl
  have hlen : (List.range 250).length = lod_target c5_verts.length (1 / 4) := by
    rw [hlen1000, htarget, List.length_range]
  have h := c5_density_sampler c5_verts (1 / 4) (List.range 250) hne hnd hrange hlen
  have h2 := (h.2 (by norm_num)).1
  refine ⟨hne, hnd, hrange, hlen, by norm_num, ?_⟩
  rw [h2, hlen1000, htarget]

/-- C8.  Whenever the resolved vertex schema lacks a property named
`x`, `y` or `z`, `read_ply_vertices` fails with the
missing-coordinate-field error, and it does so uniformly in the body:
no record bytes and no text records are ever decoded. -/
theorem c8_missing_coordinate (header_lines : List (List String)) (body : Body)
    (st : ParseState)
    (hparse : header_lines.foldlM process_line initParseState = Except.ok st)
    (hmiss : resolve_idx st.props "x" = none ∨ resolve_idx st.props "y" = none
      ∨ resolve_idx st.props "z" = none) :
    read_ply_vertices header_lines body = Except.error "PLY missing x, y, or z." := by
  unfold read_ply_vertices
  rw [hparse]
  rcases hx : resolve_idx st.props "x" with _ | ix <;>
    rcases hy : resolve_idx st.props "y" with _ | iy <;>
      rcases hz : resolve_idx st.props "z" with _ | iz <;>
        simp only [hx, hy, hz]
  rcases hmiss with h | h | h
  · exact absurd hx (h ▸ by simp [h])
  · exact absurd hy (h ▸ by simp [h])
  · exact absurd hz (h ▸ by simp [h])

/-- Witness for `c8_missing_coordinate`: the schema lacking `z` fails
with the missing-coordinate error even though record bytes are present. -/
theorem c8_missing_coordinate_witness :
    c8_header.foldlM process_line initParseState = Except.ok c8_state
    ∧ resolve_idx c8_state.props "z" = none
    ∧ read_ply_vertices c8_header (Body.bin [1, 2, 3])
        = Except.error "PLY missing x, y, or z." := by
  refine ⟨?_, ?_, ?_⟩
  · rfl
  · rfl
  · exact c8_missing_coordinate c8_header (Body.bin [1, 2, 3]) c8_state rfl
      (Or.inr (Or.inr rfl))

/-- C7.  For the six-float32 vertex schema the stride is 24 (the sum of
the declared non-list property widths) and the x/y/z indices resolve to
0, 1, 2, so decoding extracts exactly the first three 4-byte fields of
each stride-sized record — the trailing normal fields are decoded but do
not shift the coordinates. -/
theorem c7_stride_fields :
    c7_header.foldlM process_line initParseState = Except.ok c7_state
    ∧ calcsize c7_props = 24
    ∧ resolve_idx c7_props "x" = some 0
    ∧ resolve_idx c7_props "y" = some 1
    ∧ resolve_idx c7_props "z" = some 2
    ∧ ∀ data : List ℕ, 24 ∣ data.length →
        read_ply_vertices c7_header (Body.bin data)
          = Except.ok ((pyChunks 24 (data.take 48)).map (fun chunk =>
              (decode_field false 'f' (chunk.take 4),
               decode_field false 'f' ((chunk.drop 4).take 4),
               decode_field false 'f' ((chunk.drop 8).take 4)))) := by
  refine ⟨rfl, rfl, rfl, rfl, rfl, ?_⟩
  intro data hdvd
  have h0 : read_ply_vertices c7_header (Body.bin data)
      = decode_binary false c7_props 0 1 2 (data.take 48) := rfl
  rw [h0]
  have hcs : calcsize c7_props = 24 := rfl
  have h24 : (data.take 48).length % 24 = 0 := by
    rw [List.length_take]
    rcases Nat.le_total 48 data.length with hle | hle
    · rw [Nat.min_eq_left hle]
    · rw [Nat.min_eq_right hle]
      omega
  unfold decode_binary
  simp only [hcs, h24]
  norm_num
  intro chunk _
  refine ⟨rfl, rfl, ?_⟩
  show decode_field false 'f' (((chunk.drop 4).drop 4).take 4)
      = decode_field false 'f' ((chunk.drop 8).take 4)
  rw [List.drop_drop]

/-- Witness for `c7_stride_fields` on 48 zero bytes (two records). -/
theorem c7_stride_fields_witness :
    (24 : ℕ) ∣ (List.replicate 48 (0 : ℕ)).length
    ∧ read_ply_vertices c7_header (Body.bin (List.replicate 48 0))
        = Except.ok ((pyChunks 24 ((List.replicate 48 (0 : ℕ)).take 48)).map (fun chunk =>
            (decode_field false 'f' (chunk.take 4),
             decode_field false 'f' ((chunk.drop 4).take 4),
             decode_field false 'f' ((chunk.drop 8).take 4)))) := by
  refine ⟨by decide, ?_⟩
  exact c7_stride_fields.2.2.2.2.2 (List.replicate 48 0) (by decide)

/-- C2.  The claim says truncated binary data with a partial final
record is decoded without error, dropping the partial record.  On the
concrete 13-byte body (one full record + 1 byte) the code instead
raises: `struct.iter_unpack` rejects the non-multiple buffer and the
fallback's `struct.unpack` on the 1-byte slice raises `struct.error`,
so the read returns no record list at all. -/
theorem c2_counterexample :
    read_ply_vertices c2_header (Body.bin c2_body)
      = Except.error "struct.error: unpack requires a buffer of stride bytes"
    ∧ read_ply_vertices c2_header (Body.bin c2_body)
      ≠ Except.ok [((0 : ℚ), 0, 0)] := by
  have h1 : read_ply_vertices c2_header (Body.bin c2_body)
      = Except.error "struct.error: unpack requires a buffer of stride bytes" := by rfl
  refine ⟨h1, ?_⟩
  intro hcontra
  rw [h1] at hcontra
  exact Except.noConfusion hcontra

theorem pyChunks_length (stride : ℕ) (hs : stride ≠ 0) :
    ∀ (n : ℕ) (data : List ℕ), data.length ≤ n → stride ∣ data.length →
      (pyChunks stride data).length = data.length / stride := by
  intro n
  induction n with
  | zero =>
    intro data hle _
    have hnil : data = [] := List.length_eq_zero.mp (Nat.le_zero.mp hle)
    subst hnil
    rw [pyChunks]
    simp
  | succ n ih =>
    intro data hle hdvd
    rcases eq_or_ne data [] with hnil | hne
    · subst hnil
      rw [pyChunks]
      simp
    · rw [pyChunks]
      have hcond : ¬(stride = 0 ∨ data = []) := by
        push_neg
        exact ⟨hs, hne⟩
      simp only [hcond, dite_false, List.length_cons]
      have hpos : 0 < data.length := List.length_pos.mpr hne
      have hstlen : stride ≤ data.length := Nat.le_of_dvd hpos hdvd
      have hdrop : (data.drop stride).length = data.length - stride := List.length_drop ..
      have hdvd2 : stride ∣ (data.drop stride).length := by
        rw [hdrop]
        exact Nat.dvd_sub' hdvd dvd_rfl
      have hle2 : (data.drop stride).length ≤ n := by
        rw [hdrop]
        omega
      rw [ih (data.drop stride) hle2 hdvd2, hdrop]
      obtain ⟨k, hk⟩ := hdvd
      have hkpos : 1 ≤ k := by
        rcases Nat.eq_zero_or_pos k with h0 | h1
        · subst h0
          omega
        · exact h1
      rw [hk, Nat.mul_div_cancel_left k (Nat.pos_of_ne_zero hs)]
      have h2 : stride * k - stride = stride * (k - 1) := by
        cases k with
        | zero => omega
        | succ k2 => simp [Nat.mul_succ]
      rw [h2, Nat.mul_div_cancel_left _ (Nat.pos_of_ne_zero hs)]
      omega

/-- C2 (amended).  In binary mode, with a nonzero stride: when the data
after the header ends exactly at a record boundary (its length a
multiple of the stride), decoding terminates early without error and
every complete stride-sized record is decoded (`length / stride` of
them); but when the final chunk is shorter than one stride, decoding
fails with a `struct.error` — the partial last record is NOT silently
dropped. -/
theorem c2_amended (is_big_endian : Bool) (props : List (String × Char))
    (ix iy iz : ℕ) (data : List ℕ) (hs : calcsize props ≠ 0) :
    (calcsize props ∣ data.length →
       decode_binary is_big_endian props ix iy iz data
         = Except.ok ((pyChunks (calcsize props) data).map (fun chunk =>
             let u := unpack_chunk is_big_endian (props.map (fun p => p.2)) chunk
             (u.getD ix 0, u.getD iy 0, u.getD iz 0)))
       ∧ (pyChunks (calcsize props) data).length = data.length / calcsize props)
    ∧ (¬ calcsize props ∣ data.length →
       decode_binary is_big_endian props ix iy iz data
         = Except.error "struct.error: unpack requires a buffer of stride bytes") := by
  constructor
  · intro hdvd
    have hmod : data.length % calcsize props = 0 := Nat.mod_eq_zero_of_dvd hdvd
    constructor
    · unfold decode_binary
      simp only [hs, hmod]
      norm_num
    · exact pyChunks_length (calcsize props) hs data.length data le_rfl hdvd
  · intro hndvd
    have hmod : data.length % calcsize props ≠ 0 := by
      intro hcon
      exact hndvd (Nat.dvd_of_mod_eq_zero hcon)
    unfold decode_binary
    simp only [hs, hmod]
    norm_num

/-- Witness for `c2_amended`: a three-float32 schema (stride 12) with a
13-byte body hits the error branch. -/
theorem c2_amended_witness :
    calcsize [("x", 'f'), ("y", 'f'), ("z", 'f')] ≠ 0
    ∧ ¬ calcsize [("x", 'f'), ("y", 'f'), ("z", 'f')] ∣ (List.replicate 13 (0 : ℕ)).length
    ∧ decode_binary false [("x", 'f'), ("y", 'f'), ("z", 'f')] 0 1 2 (List.replicate 13 0)
        = Except.error "struct.error: unpack requires a buffer of stride bytes" := by
  refine ⟨by decide, by decide, ?_⟩
  exact (c2_amended false [("x", 'f'), ("y", 'f'), ("z", 'f')] 0 1 2
    (List.replicate 13 0) (by decide)).2 (by decide)

end IcoCloud
